import Mathlib

/-!
Verification development for the writers-toolkit repository.

The Python modules under `toolkit/scripts/core/` are shallowly embedded here:
pure functions become Lean functions, the filesystem and the YAML parser
become explicit oracle parameters, Python dicts become insertion-ordered
association lists (`dget?` / `dinsert` mirror `d[k]` reads and `d[k] = v`
writes), and Python strings become Lean `String` (lists of characters), with
`str.splitlines` modelled as splitting on the newline character.
-/

namespace WritersToolkit

/-! ## Ordered dictionaries (Python `dict` as insertion-ordered assoc lists) -/

/-- Lookup of a key in an association list, as `d.get(k)` on a Python dict
(the first matching entry wins; dict invariant keeps keys distinct). -/
def dget? {α : Type} (k : String) : List (String × α) → Option α
  | [] => none
  | p :: t => if p.1 = k then some p.2 else dget? k t

/-- Assignment `d[k] = v` on a Python dict: update the entry in place when the
key exists, append it otherwise. -/
def dinsert {α : Type} (k : String) (v : α) : List (String × α) → List (String × α)
  | [] => [ (k, v)]
  | p :: t => if p.1 = k then (k, v) :: t else p :: dinsert k v t

theorem dget?_dinsert_self {α : Type} (k : String) (v : α) (d : List (String × α)) :
    dget? k (dinsert k v d) = some v := by
  induction d with
  | nil => simp [dget?, dinsert]
  | cons p t ih =>
    by_cases h : p.1 = k <;> simp [dget?, dinsert, h, ih]

theorem dget?_dinsert_ne {α : Type} {k k' : String} (v : α) (d : List (String × α))
    (h : k' ≠ k) : dget? k' (dinsert k v d) = dget? k' d := by
  induction d with
  | nil => simp [dget?, dinsert, Ne.symm h]
  | cons p t ih =>
    by_cases hp : p.1 = k
    · simp [dget?, dinsert, hp, Ne.symm h]
    · simp [dget?, dinsert, hp, ih]

theorem mem_keys_dinsert_self {α : Type} (k : String) (v : α) (d : List (String × α)) :
    k ∈ (dinsert k v d).map Prod.fst := by
  induction d with
  | nil => simp [dinsert]
  | cons p t ih =>
    by_cases h : p.1 = k
    · simp [dinsert, h]
    · simp only [dinsert, h, if_false, List.map_cons]
      exact List.mem_cons_of_mem _ ih

theorem mem_keys_dinsert_of {α : Type} {k' : String} (k : String) (v : α)
    (d : List (String × α)) (h : k' ∈ d.map Prod.fst) :
    k' ∈ (dinsert k v d).map Prod.fst := by
  induction d with
  | nil => simp at h
  | cons p t ih =>
    rw [List.map_cons] at h
    rcases List.mem_cons.mp h with h1 | h2
    · by_cases hp : p.1 = k
      · simp only [dinsert, hp, if_true, List.map_cons]
        exact List.mem_cons.mpr (Or.inl (h1.trans hp))
      · simp only [dinsert, hp, if_false, List.map_cons]
        exact List.mem_cons.mpr (Or.inl h1)
    · by_cases hp : p.1 = k
      · simp only [dinsert, hp, if_true, List.map_cons]
        exact List.mem_cons_of_mem _ h2
      · simp only [dinsert, hp, if_false, List.map_cons]
        exact List.mem_cons_of_mem _ (ih h2)

theorem keys_dinsert_sub {α : Type} (k : String) (v : α) (d : List (String × α)) :
    ((dinsert k v d).map Prod.fst) ⊆ k :: d.map Prod.fst := by
  induction d with
  | nil => simp [dinsert]
  | cons p t ih =>
    by_cases h : p.1 = k
    · intro a ha
      simp only [dinsert, h, if_true, List.map_cons, List.mem_cons] at ha
      rcases ha with h1 | h2
      · simp [h1]
      · simp [h2]
    · intro a ha
      simp only [dinsert, h, if_false, List.map_cons, List.mem_cons] at ha
      rcases ha with h1 | h2
      · simp [h1]
      · rcases List.mem_cons.mp (ih h2) with h3 | h4
        · exact List.mem_cons.mpr (Or.inl h3)
        · rw [List.map_cons]
          exact List.mem_cons.mpr (Or.inr (List.mem_cons.mpr (Or.inr h4)))

/-! ## Python string primitives on character lists -/

/-- Python `str.splitlines`, modelled as splitting on the newline character
(the only line separator the repository's data uses). -/
def splitLinesAux : List Char → List Char → List (List Char)
  | [], cur => [cur.reverse]
  | '\n' :: rest, cur => cur.reverse :: splitLinesAux rest []
  | c :: rest, cur => splitLinesAux rest (c :: cur)

def splitLinesS (s : String) : List String :=
  (splitLinesAux s.data []).map (fun cs => ⟨cs⟩)

/-- Python `str.lstrip()` (drop leading whitespace). -/
def ltrimS (s : String) : String := ⟨s.data.dropWhile Char.isWhitespace⟩

/-- Python `str.strip()` (drop whitespace on both ends). -/
def trimS (s : String) : String :=
  ⟨((s.data.dropWhile Char.isWhitespace).reverse.dropWhile Char.isWhitespace).reverse⟩

/-- Python `str.startswith`. -/
def startsWithS (s p : String) : Bool := p.data.isPrefixOf s.data

/-- Python slicing `s[n:]`. -/
def strDrop (s : String) (n : Nat) : String := ⟨s.data.drop n⟩

/-- Python `sep.join(parts)`. -/
def joinSep (sep : String) : List String → String
  | [] => ""
  | [x] => x
  | x :: xs => x ++ sep ++ joinSep sep xs

/-- Python `s.find(pat)`: index of the first occurrence, `none` for -1. -/
def findSub (p : List Char) : List Char → Option Nat
  | [] => if p = [] then some 0 else none
  | c :: rest =>
    if p.isPrefixOf (c :: rest) then some 0
    else (findSub p rest).map (fun n => n + 1)

/-- Python `s.split(sep, 1)` restricted to the newline separator: the text
before the first newline and the text after it, or `none` when the text has
no newline (Python then returns the one-element list). -/
def splitFirstNLAux : List Char → Option (List Char × List Char)
  | [] => none
  | '\n' :: rest => some ( [], rest)
  | c :: rest => (splitFirstNLAux rest).map (fun p => (c :: p.1, p.2))

def splitFirstNL (s : String) : Option (String × String) :=
  (splitFirstNLAux s.data).map (fun p => (⟨p.1⟩, ⟨p.2⟩))

/-- One fuel step of Python `str.replace(old, new)`: replace the leftmost
occurrence and continue after the inserted text, never rescanning it for the
same pattern. The fuel argument only bounds the scan; an initial fuel of at
least the text's length never runs out for a non-empty pattern. -/
def replaceAllAux (p v : List Char) : Nat → List Char → List Char
  | _, [] => []
  | 0, s => s
  | fuel + 1, c :: rest =>
    if p.isPrefixOf (c :: rest) then
      v ++ replaceAllAux p v fuel (List.drop p.length (c :: rest))
    else
      c :: replaceAllAux p v fuel rest

/-- Python `s.replace(p, v)` for a non-empty pattern `p`. -/
def pyReplace (s p v : String) : String :=
  ⟨replaceAllAux p.data v.data s.data.length s.data⟩

/-- The pattern occurs somewhere inside the text. -/
def containsSub (p s : List Char) : Prop := ∃ l r, s = l ++ p ++ r

theorem isPrefixOf_iff_exists {p s : List Char} :
    p.isPrefixOf s = true ↔ ∃ r, s = p ++ r := by
  induction p generalizing s with
  | nil => simp [List.isPrefixOf]
  | cons a p ih =>
    cases s with
    | nil => simp [List.isPrefixOf]
    | cons b s =>
      simp only [List.isPrefixOf, Bool.and_eq_true, beq_iff_eq, ih, List.cons_append]
      constructor
      · rintro ⟨rfl, r, rfl⟩; exact ⟨r, rfl⟩
      · rintro ⟨r, h⟩
        cases h
        exact ⟨rfl, r, rfl⟩

/-! ## YAML values and the codex data model (codex.py) -/

/-- The YAML scalar shapes the codex cards use: strings, lists of strings
(the `names` field) and null. -/
inductive YVal where
  | str : String → YVal
  | strlist : List String → YVal
  | null : YVal
deriving DecidableEq

/-- A parsed YAML mapping (front matter, normalized card, configuration). -/
abbrev YDict := List (String × YVal)

/-- Python truthiness of a YAML value (`if not x`, `x or y`). -/
def isTruthyY : YVal → Bool
  | .str s => s ≠ ""
  | .strlist l => ¬ l.isEmpty
  | .null => false

/-- Python `str(x)` of a YAML value. -/
def strY : YVal → String
  | .str s => s
  | .null => "None"
  | .strlist l => "[" ++ joinSep ", " (l.map (fun s => "\x27" ++ s ++ "\x27")) ++ "]"

/-- Result of `_parse_markdown_card`: front-matter metadata plus body text. -/
structure ParsedCard where
  meta : YDict
  body : String
deriving DecidableEq

/-- The oracle standing for `yaml.safe_load`: `.error ()` is a `YAMLError`,
`.ok none` a document that loads as `None`, `.ok (some d)` a mapping. -/
abbrev YamlOracle := String → Except Unit (Option YDict)

/-- codex.py `_parse_markdown_card`: split optional `---` front matter from
the body.  Front matter that never closes leaves the whole text as the body;
a `YAMLError` (or a null document) degrades to empty metadata. -/
def parse_markdown_card (yamlP : YamlOracle) (text : String) : ParsedCard :=
  if ¬ startsWithS text "---" then ⟨ [], text⟩
  else
    match splitFirstNL text with
    | none => ⟨ [], text⟩
    | some (_, rest) =>
      match findSub ( "\n---").data rest.data with
      | none => ⟨ [], text⟩
      | some fm_end =>
        let fm_text : String := ⟨rest.data.take fm_end⟩
        let body : String := ⟨(rest.data.drop (fm_end + 4)).dropWhile (fun c => c == '\n')⟩
        let meta : YDict :=
          match yamlP fm_text with
          | .ok (some d) => d
          | .ok none => []
          | .error _ => []
        ⟨meta, body⟩

/-- codex.py `_normalize_card`: copy the metadata, add `body` and `raw_text`,
derive `name` from a non-empty `names` list and `summary` from the first
non-empty body line when no explicit summary exists. -/
def normalize_card (meta : YDict) (body : String) : YDict :=
  let card := meta
  let card := dinsert "body" (.str body) card
  let card := dinsert "raw_text" (.str body) card
  let card :=
    match dget? "names" meta with
    | some (.strlist (n0 :: _)) => dinsert "name" (.str (trimS n0)) card
    | _ => card
  if (dget? "summary" card).isSome then card
  else
    match (splitLinesS body).filterMap
        (fun ln => let s := trimS ln; if s ≠ "" then some s else none) with
    | [] => card
    | l0 :: _ => dinsert "summary" (.str l0) card

/-- One card type's entry in `codex/index.yaml` (`types.<KEY>.folder`). -/
structure TypeCfg where
  folder : Option String
deriving DecidableEq

/-- A markdown file of a codex folder: its base name (`path.stem`) and text. -/
structure MDFile where
  stem : String
  content : String
deriving DecidableEq

/-- The story root as the pure pipeline observes it: configuration, outline
texts, the codex index's `types` table, the codex folders (`none` = folder
does not exist) and the YAML parser. -/
structure World where
  beatgenCfg : YDict
  master : Option String
  scenes : Nat → Nat → Option String
  indexTypes : List (String × TypeCfg)
  folders : String → Option (List MDFile)
  yamlP : YamlOracle

/-- codex.py `_load_cards_for_type`: resolve the type key through the index's
`types` table, enumerate the folder's markdown files, and normalize each card
keyed by its `unique-id` (file stem when absent or falsy). An absent type key
or folder yields an empty mapping. -/
def load_cards_for_type (w : World) (type_key : String) : List (String × YDict) :=
  match dget? type_key w.indexTypes with
  | none => []
  | some type_cfg =>
    match type_cfg.folder with
    | none => []
    | some folder_name =>
      if folder_name = "" then []
      else
        match w.folders folder_name with
        | none => []
        | some files =>
          files.foldl
            (fun cards file =>
              let parsed := parse_markdown_card w.yamlP file.content
              let card := normalize_card parsed.meta parsed.body
              let card_id :=
                match dget? "unique-id" parsed.meta with
                | some v => if isTruthyY v then strY v else file.stem
                | none => file.stem
              dinsert card_id card cards)
            []

/-- Result of `load_scene_outline`: the scene file's text (empty if absent). -/
structure SceneOutline where
  raw_text : String

/-- Result of `load_master_outline`. -/
structure MasterOutline where
  raw_text : String

/-- outline.py `load_master_outline`. -/
def load_master_outline (w : World) : MasterOutline := ⟨w.master.getD ""⟩

/-- outline.py `load_scene_outline` (the path layout is abstracted into the
world's scene table). -/
def load_scene_outline (w : World) (chapter_num scene_num : Nat) : SceneOutline :=
  ⟨(w.scenes chapter_num scene_num).getD ""⟩

/-- codex.py `get_characters_for_scene` (MVP: all CHAR cards). -/
def get_characters_for_scene (w : World) (scene_outline : SceneOutline) :
    List (String × YDict) :=
  let _ := scene_outline
  load_cards_for_type w "CHAR"

/-- codex.py `get_locations_for_scene` (MVP: all LOC cards). -/
def get_locations_for_scene (w : World) (scene_outline : SceneOutline) :
    List (String × YDict) :=
  let _ := scene_outline
  load_cards_for_type w "LOC"

/-- codex.py `get_threads`. -/
def get_threads (w : World) : List (String × YDict) :=
  load_cards_for_type w "THREAD"

/-- codex.py's identifier convention: `str(ot_id).replace("_OVER_TIME", "")`
removes every occurrence of the suffix string, not only a trailing one. -/
def stripOverTime (s : String) : String := pyReplace s "_OVER_TIME" ""

/-- codex.py `get_characters_over_time`: load all CHAR_OVERTIME cards, build
the reverse map from stripped identifier to card (later cards overwrite
earlier ones), then keep only the requested base identifiers. -/
def get_characters_over_time (w : World) (character_ids : List String) :
    List (String × YDict) :=
  let all_over_time := load_cards_for_type w "CHAR_OVERTIME"
  let result := all_over_time.foldl
    (fun result p => dinsert (stripOverTime p.1) p.2 result) []
  character_ids.foldl
    (fun filtered char_id =>
      match dget? char_id result with
      | some card => dinsert char_id card filtered
      | none => filtered)
    []

/-- codex.py `get_style_guide`: prefer `STYLE_PROJECT_DEFAULT`, else the
first STYLE card, else none. -/
def get_style_guide (w : World) : Option YDict :=
  let styles := load_cards_for_type w "STYLE"
  match styles with
  | [] => none
  | _ =>
    match styles.find? (fun p => p.1 == "STYLE_PROJECT_DEFAULT") with
    | some p => some p.2
    | none => styles.head?.map (fun p => p.2)

/-- codex.py `get_pov_voice`: match a VOICE card's `character` field against
the POV character's resolved name, else fall back to the first VOICE card. -/
def get_pov_voice (w : World) (pov_char_id : String) : Option YDict :=
  let voices := load_cards_for_type w "VOICE"
  match voices with
  | [] => none
  | _ =>
    let chars := load_cards_for_type w "CHAR"
    let pov_name : Option YVal :=
      match dget? pov_char_id chars with
      | some pov_card => dget? "name" pov_card
      | none => none
    match pov_name with
    | some nm =>
      if isTruthyY nm then
        match voices.find? (fun p => dget? "character" p.2 == some nm) with
        | some p => some p.2
        | none => voices.head?.map (fun p => p.2)
      else voices.head?.map (fun p => p.2)
    | none => voices.head?.map (fun p => p.2)

/-! ## Outline heuristics (outline.py) -/

/-- outline.py `_extract_first_heading`: first line starting with `'#' * level
+ " "`, without that marker and stripped. -/
def extract_first_heading (lines : List String) (level : Nat) : Option String :=
  let p : String := ⟨List.replicate level '#'⟩ ++ " "
  match lines with
  | [] => none
  | line :: rest =>
    if startsWithS line p then some (trimS (strDrop line p.data.length))
    else extract_first_heading rest level

/-- outline.py `_extract_first_nonempty_line`: first line whose stripped text
is non-empty, stripped. -/
def extract_first_nonempty_line : List String → Option String
  | [] => none
  | line :: rest =>
    let stripped := trimS line
    if stripped ≠ "" then some stripped else extract_first_nonempty_line rest

/-- outline.py `_extract_scene_summary_from_text`: skip the leading run of
lines whose left-stripped text starts with `#`, then take the first non-empty
line of the remainder (empty string when none exists). -/
def skipLeadingHeadingLines : List String → List String
  | [] => []
  | line :: rest =>
    if startsWithS (ltrimS line) "#" then skipLeadingHeadingLines rest
    else line :: rest

def extract_scene_summary_from_text (text : String) : String :=
  let lines := splitLinesS text
  let summary := extract_first_nonempty_line (skipLeadingHeadingLines lines)
  summary.getD ""

/-- The compact context `build_outline_context` assembles. -/
structure OutlineContext where
  chapter_title : String
  scene_title : String
  scene_summary : String
  previous_scene_title : String
  previous_scene_summary : String
  beat_goal : String
  tone : String
deriving DecidableEq

/-- outline.py `build_outline_context`: titles from the scene text's first
level-1/level-2 headings with synthesized fallbacks, summary from the first
non-heading line, beat goal defaulting to the summary or a generic phrase,
previous-scene fields and tone left empty. -/
def build_outline_context (master_outline : MasterOutline) (scene_outline : SceneOutline)
    (chapter_num : Nat) (context_rules : Option YVal) : OutlineContext :=
  let _ := master_outline
  let _ := context_rules
  let raw_text := scene_outline.raw_text
  let lines := splitLinesS raw_text
  let chapter_title :=
    match extract_first_heading lines 1 with
    | some t => if t = "" then "Chapter " ++ toString chapter_num else t
    | none => "Chapter " ++ toString chapter_num
  let scene_title :=
    match extract_first_heading lines 2 with
    | some t => if t = "" then "Scene" else t
    | none => "Scene"
  let scene_summary := extract_scene_summary_from_text raw_text
  let previous_scene_title := ""
  let previous_scene_summary := ""
  let beat_goal :=
    if scene_summary = "" then "Continue the story from the current point." else scene_summary
  let tone := ""
  ⟨chapter_title, scene_title, scene_summary, previous_scene_title,
    previous_scene_summary, beat_goal, tone⟩

/-- POV selection result of `determine_pov_character`. -/
structure Pov where
  id : String
  name : YVal
  mode : String

/-- outline.py `determine_pov_character`: the first character in iteration
order, with the fixed narrative mode; `none` when no characters exist. -/
def determine_pov_character (scene_outline : SceneOutline)
    (characters : List (String × YDict)) : Option Pov :=
  let _ := scene_outline
  match characters with
  | [] => none
  | (char_id, card) :: _ =>
    some ⟨char_id, (dget? "name" card).getD (.str char_id), "third person limited"⟩

/-! ## Beat specification assembly (beat_spec.py) -/

/-- beat_spec.py `_filter_threads_by_chapter`: documented pass-through. -/
def filter_threads_by_chapter (threads : List (String × YDict)) (chapter_num : Nat)
    (thread_cfg : Option YVal) : List (String × YDict) :=
  let _ := chapter_num
  let _ := thread_cfg
  threads

/-- One merged character entry of `_merge_character_cards_with_over_time`. -/
structure MergedChar where
  id : String
  name : YVal
  base_card : YDict
  over_time : YDict
  chapter_state : Option YVal

/-- beat_spec.py `_merge_character_cards_with_over_time`: wrap each base card
with its over-time card (empty dict when absent). -/
def merge_character_cards_with_over_time (characters : List (String × YDict))
    (characters_over_time : List (String × YDict)) (chapter_num : Nat)
    (over_time_cfg : Option YVal) : List (String × MergedChar) :=
  let _ := chapter_num
  let _ := over_time_cfg
  characters.foldl
    (fun merged p =>
      let ot_card := (dget? p.1 characters_over_time).getD []
      let name := (dget? "name" p.2).getD (.str p.1)
      dinsert p.1 ⟨p.1, name, p.2, ot_card, dget? "chapter_state" ot_card⟩ merged)
    []

/-- Zero-padded two-digit rendering, Python `f"{n:02d}"` for natural n. -/
def pad2 (n : Nat) : String := if n < 10 then "0" ++ toString n else toString n

/-- The identifier sub-record of a beat specification. -/
structure BeatIds where
  chapter_num : Nat
  scene_num : Nat
  beat_num : Nat
  chapter_id : String
  scene_id : String
  beat_id : String

/-- The aggregate record `build_beat_spec` assembles. -/
structure BeatSpec where
  ids : BeatIds
  pov : Option Pov
  outline : OutlineContext
  characters : List (String × MergedChar)
  locations : List (String × YDict)
  threads : List (String × YDict)
  style : Option YDict
  voice : Option YDict
  generator_config : YDict

/-- beat_spec.py `build_beat_spec`: load configuration and outlines, build
the outline context, fetch codex data, pick the POV, apply the time-aware
merges and assemble the aggregate record. -/
def build_beat_spec (w : World) (chapter_num scene_num beat_num : Nat) : BeatSpec :=
  let cfg := w.beatgenCfg
  let master_outline := load_master_outline w
  let scene_outline := load_scene_outline w chapter_num scene_num
  let outline_context :=
    build_outline_context master_outline scene_outline chapter_num
      (dget? "context_rules" cfg)
  let characters := get_characters_for_scene w scene_outline
  let characters_over_time := get_characters_over_time w (characters.map Prod.fst)
  let locations := get_locations_for_scene w scene_outline
  let threads := get_threads w
  let style_guide := get_style_guide w
  let pov_info := determine_pov_character scene_outline characters
  let pov_voice :=
    match pov_info with
    | none => none
    | some pov => get_pov_voice w pov.id
  let time_filtered_threads :=
    filter_threads_by_chapter threads chapter_num (dget? "threads" cfg)
  let merged_characters :=
    merge_character_cards_with_over_time characters characters_over_time chapter_num
      (dget? "character_over_time" cfg)
  ⟨⟨chapter_num, scene_num, beat_num,
      "ch" ++ pad2 chapter_num, "sc" ++ pad2 scene_num, "b" ++ pad2 beat_num⟩,
    pov_info, outline_context, merged_characters, locations, time_filtered_threads,
    style_guide, pov_voice, cfg⟩

/-! ## Story-so-far block (blocks.py) -/

/-- blocks.py `_build_story_so_far_block`, as the list of lines the Python
code appends before joining them with newlines. -/
def build_story_so_far_lines (spec : BeatSpec) : List String :=
  let ids := spec.ids
  let outline := spec.outline
  let chapter_num := ids.chapter_num
  let scene_num := ids.scene_num
  let chapter_title :=
    if outline.chapter_title = "" then "Chapter " ++ toString chapter_num
    else outline.chapter_title
  let scene_title :=
    if outline.scene_title = "" then "Scene " ++ toString scene_num
    else outline.scene_title
  let scene_summary := trimS outline.scene_summary
  let prev_scene_title :=
    if outline.previous_scene_title = "" then "Previous Scene"
    else outline.previous_scene_title
  let prev_scene_summary := trimS outline.previous_scene_summary
  let prev_scene_num := if scene_num > 1 then scene_num - 1 else max (scene_num - 1) 0
  let lines : List String := []
  let lines := lines ++ [ "<act number=\"1\" title=\"Novel\">"]
  let lines := lines ++
    [ "  <chapter title=\"" ++ chapter_title ++ "\" number=\"" ++ toString chapter_num ++ "\">"]
  let lines :=
    if prev_scene_summary ≠ "" then
      lines ++
        [ "    <scene title=\"" ++ prev_scene_title ++ "\" number=\"" ++
            toString prev_scene_num ++ "\">"] ++
        [ "      " ++ prev_scene_summary] ++
        [ "    </scene>"]
    else lines
  let lines := lines ++
    [ "    <scene title=\"" ++ scene_title ++ "\" number=\"" ++ toString scene_num ++ "\">"]
  let lines := if scene_summary ≠ "" then lines ++ [ "      " ++ scene_summary] else lines
  let lines := lines ++ [ "    </scene>"]
  let lines := lines ++ [ "  </chapter>"]
  let lines := lines ++ [ "</act>"]
  lines

def build_story_so_far_block (spec : BeatSpec) : String :=
  joinSep "\n" (build_story_so_far_lines spec)

/-! ## Prompt template engine (prompts.py) -/

/-- One slot declaration of an action in `prompting.yaml`. -/
structure SlotDef where
  slot : String
  role : String
  required : Bool
deriving DecidableEq

/-- One action's configuration in `prompting.yaml`. -/
structure ActionCfg where
  template_set : String
  slots : List SlotDef
deriving DecidableEq

/-- The two error shapes `render_prompts_for_action` can raise. -/
inductive PromptError where
  | keyError : String → PromptError
  | fileNotFound : String → PromptError
deriving DecidableEq

/-- prompts.py `_render_template_file`: sequential `{{KEY}}` substitution,
one full-text replacement pass per blocks entry in mapping order. -/
def render_template_file (raw_text : String) (blocks : List (String × String)) : String :=
  blocks.foldl
    (fun rendered kv =>
      let placeholder := "\x7b\x7b" ++ kv.1 ++ "\x7d\x7d"
      pyReplace rendered placeholder kv.2)
    raw_text

/-- prompts.py `_slot_to_filename`. -/
def slot_to_filename (slot : String) : String :=
  if slot = "system" then "system_message.txt"
  else if slot = "user" then "user.txt"
  else if slot = "user2" then "user_2.txt"
  else slot ++ ".txt"

/-- The slot loop of `render_prompts_for_action`: a missing template file is
an error when the slot is required, skipped when optional; a present one is
rendered into the accumulated mapping. `fs` is the filesystem oracle (`none`
= the path does not exist). -/
def renderSlots (fs : String → Option String) (prompts_root : String)
    (blocks : List (String × String)) (acc : List (String × String)) :
    List SlotDef → Except PromptError (List (String × String))
  | [] => .ok acc
  | slot_def :: rest =>
    let path := prompts_root ++ "/" ++ slot_to_filename slot_def.slot
    match fs path with
    | none =>
      if slot_def.required then
        .error (.fileNotFound
          ( "Required template file for slot \x27" ++ slot_def.slot ++
            "\x27 not found at: " ++ path))
      else renderSlots fs prompts_root blocks acc rest
    | some raw_text =>
      renderSlots fs prompts_root blocks
        (dinsert slot_def.slot (render_template_file raw_text blocks) acc) rest

/-- Python `sorted` on strings (ascending lexicographic insertion sort). -/
def insertSorted (x : String) : List String → List String
  | [] => [x]
  | y :: t => if x ≤ y then x :: y :: t else y :: insertSorted x t

def sortStrings : List String → List String
  | [] => []
  | x :: t => insertSorted x (sortStrings t)

/-- prompts.py `render_prompts_for_action`: look the action up in the
prompting configuration's `actions` table (unknown keys fail with a
`KeyError` listing the known actions), then render its declared slots. -/
def render_prompts_for_action (fs : String → Option String) (story_root : String)
    (actions_cfg : List (String × ActionCfg)) (action_key : String)
    (blocks : List (String × String)) : Except PromptError (List (String × String)) :=
  match dget? action_key actions_cfg with
  | none =>
    let available := joinSep ", " (sortStrings (actions_cfg.map Prod.fst))
    .error (.keyError
      ( "Action \x27" ++ action_key ++ "\x27 not found in prompting.yaml. " ++
        "Available actions: " ++ available))
  | some action_cfg =>
    let prompts_root := story_root ++ "/toolkit/prompts/" ++ action_cfg.template_set
    renderSlots fs prompts_root blocks [] action_cfg.slots

/-! ## Claim-side auxiliary definitions and helper lemmas -/

theorem strData_append (a b : String) : (a ++ b).data = a.data ++ b.data := rfl

theorem skipLeadingHeadingLines_eq_dropWhile (ls : List String) :
    skipLeadingHeadingLines ls = ls.dropWhile (fun l => startsWithS (ltrimS l) "#") := by
  induction ls with
  | nil => rfl
  | cons l t ih =>
    by_cases h : startsWithS (ltrimS l) "#" <;>
      simp [skipLeadingHeadingLines, List.dropWhile_cons, h, ih]

theorem extract_first_nonempty_line_eq_find (ls : List String) :
    extract_first_nonempty_line ls = (ls.find? (fun l => trimS l != "")).map trimS := by
  induction ls with
  | nil => rfl
  | cons l t ih =>
    by_cases h : trimS l = ""
    · rw [List.find?_cons_of_neg _ (by simp [h])]
      simpa [extract_first_nonempty_line, h] using ih
    · rw [List.find?_cons_of_pos _ (by simp [h])]
      simp [extract_first_nonempty_line, h]

/-- The first non-empty body line, stripped, as the amended C3 reads it. -/
theorem filterMap_trim_head (ls : List String) :
    (ls.filterMap (fun ln => let s := trimS ln; if s ≠ "" then some s else none)).head? =
      (ls.find? (fun l => trimS l != "")).map trimS := by
  induction ls with
  | nil => rfl
  | cons l t ih =>
    by_cases h : trimS l = ""
    · rw [List.find?_cons_of_neg _ (by simp [h]), List.filterMap_cons]
      simpa [h] using ih
    · rw [List.find?_cons_of_pos _ (by simp [h]), List.filterMap_cons]
      simp [h]

/-! ## C4: absent type key or folder yields an empty mapping -/

/-- C4: for every story root and type key, loading cards for a type key that
is absent from the codex index, or whose configured folder is absent or does
not exist, returns an empty mapping (the embedded loader is a total function,
so no error can be raised on these paths). -/
theorem c4_absent_type_or_folder_empty (w : World) (type_key : String)
    (h : dget? type_key w.indexTypes = none
      ∨ (∃ tc, dget? type_key w.indexTypes = some tc ∧
          (tc.folder = none ∨ tc.folder = some ""))
      ∨ (∃ tc f, dget? type_key w.indexTypes = some tc ∧ tc.folder = some f ∧
          w.folders f = none)) :
    load_cards_for_type w type_key = [] := by
  unfold load_cards_for_type
  rcases h with h | ⟨tc, htc, hf | hf⟩ | ⟨tc, f, htc, hf, hff⟩
  · simp [h]
  · simp [htc, hf]
  · simp [htc, hf]
  · by_cases hempty : f = "" <;> simp [htc, hf, hff, hempty]

/-- Witness for C4 at a story whose codex index has no `CHAR` entry. -/
theorem c4_witness :
    load_cards_for_type
      ⟨ [], none, fun _ _ => none, [], fun _ => none, fun _ => .ok none⟩ "CHAR" = [] :=
  c4_absent_type_or_folder_empty _ _ (Or.inl rfl)

/-! ## C3: summary preservation and derivation in `_normalize_card` -/

/-- C3 (amended): normalization preserves an explicit `summary` metadata
field exactly; without one, the normalized summary is the first body line
whose stripped text is non-empty, itself stripped of surrounding whitespace
(not verbatim), and no summary is set when no such line exists. -/
theorem c3_summary_normalization (meta : YDict) (body : String) :
    dget? "summary" (normalize_card meta body) =
      match dget? "summary" meta with
      | some v => some v
      | none =>
        ((splitLinesS body).find? (fun l => trimS l != "")).map
          (fun l => YVal.str (trimS l)) := by
  have hbody : ( "summary" : String) ≠ "body" := by decide
  have hraw : ( "summary" : String) ≠ "raw_text" := by decide
  have hname : ( "summary" : String) ≠ "name" := by decide
  have H : ∀ card : YDict, dget? "summary" card = dget? "summary" meta →
      dget? "summary"
        (if (dget? "summary" card).isSome then card
         else
           match (splitLinesS body).filterMap
               (fun ln => let s := trimS ln; if s ≠ "" then some s else none) with
           | [] => card
           | l0 :: _ => dinsert "summary" (.str l0) card) =
        (match dget? "summary" meta with
         | some v => some v
         | none =>
           ((splitLinesS body).find? (fun l => trimS l != "")).map
             (fun l => YVal.str (trimS l))) := by
    intro card hc
    cases hsum : dget? "summary" meta with
    | some v => simp [hc, hsum]
    | none =>
      simp only [hc, hsum, Option.isSome_none, Bool.false_eq_true, if_false]
      have hhead := filterMap_trim_head (splitLinesS body)
      cases hfm : (splitLinesS body).filterMap
          (fun ln => let s := trimS ln; if s ≠ "" then some s else none) with
      | nil =>
        rw [hfm] at hhead
        simp only [List.head?_nil] at hhead
        have hfind : (splitLinesS body).find? (fun l => trimS l != "") = none := by
          cases hf2 : (splitLinesS body).find? (fun l => trimS l != "") with
          | none => rfl
          | some l => rw [hf2] at hhead; simp at hhead
        rw [hfind, hc, hsum]
        simp
      | cons l0 t =>
        rw [hfm] at hhead
        simp only [List.head?_cons] at hhead
        cases hfind : (splitLinesS body).find? (fun l => trimS l != "") with
        | none => rw [hfind] at hhead; simp at hhead
        | some l =>
          rw [hfind] at hhead
          simp only [Option.map] at hhead
          have hl : l0 = trimS l := by
            have := hhead
            simp only [Option.some.injEq] at this
            exact this
          rw [dget?_dinsert_self, hl]
          simp
  simp only [normalize_card]
  cases hnames : dget? "names" meta with
  | none =>
    exact H _ (by rw [dget?_dinsert_ne _ _ hraw, dget?_dinsert_ne _ _ hbody])
  | some y =>
    cases y with
    | str s => exact H _ (by rw [dget?_dinsert_ne _ _ hraw, dget?_dinsert_ne _ _ hbody])
    | null => exact H _ (by rw [dget?_dinsert_ne _ _ hraw, dget?_dinsert_ne _ _ hbody])
    | strlist ns =>
      cases ns with
      | nil => exact H _ (by rw [dget?_dinsert_ne _ _ hraw, dget?_dinsert_ne _ _ hbody])
      | cons n0 t =>
        exact H _ (by
          rw [dget?_dinsert_ne _ _ hname, dget?_dinsert_ne _ _ hraw,
            dget?_dinsert_ne _ _ hbody])

/-- C3 counterexample: for the card with no metadata and body `"  hi"`, the
normalized summary is the stripped line `"hi"`, not the verbatim first
non-empty line `"  hi"` the claim asserts. -/
theorem c3_counterexample :
    dget? "summary" (normalize_card [] "  hi") ≠ some (.str "  hi") ∧
    dget? "summary" (normalize_card [] "  hi") = some (.str "hi") := by
  constructor <;> decide

/-! ## C2: scene summary heuristic of `build_outline_context` -/

/-- A line the skip loop of `_extract_scene_summary_from_text` treats as a
heading: its left-stripped text starts with `#`. -/
def lineIsHeading (l : String) : Bool := startsWithS (ltrimS l) "#"

/-- The amended C2 reading: the stripped first non-empty line after dropping
only the leading run of heading lines. -/
def amendedSceneSummary (text : String) : String :=
  match ((splitLinesS text).dropWhile lineIsHeading).find? (fun l => trimS l != "") with
  | some l => trimS l
  | none => ""

/-- The claim's reading of the summary: the stripped first line of the whole
text that is both non-empty and not a heading. -/
def claimedSceneSummary (text : String) : String :=
  match (splitLinesS text).find? (fun l => trimS l != "" && !(lineIsHeading l)) with
  | some l => trimS l
  | none => ""

/-- C2 (amended): the `scene_summary` field of `build_outline_context` is the
stripped first non-empty line found after skipping only the leading run of
heading lines (empty when no such line exists); a heading line that follows a
blank line is itself returned, so the summary is not always a non-heading
line. -/
theorem c2_scene_summary (master_outline : MasterOutline) (scene_outline : SceneOutline)
    (chapter_num : Nat) (context_rules : Option YVal) :
    (build_outline_context master_outline scene_outline chapter_num
        context_rules).scene_summary =
      amendedSceneSummary scene_outline.raw_text := by
  show (extract_first_nonempty_line
      (skipLeadingHeadingLines (splitLinesS scene_outline.raw_text))).getD "" = _
  unfold amendedSceneSummary
  rw [skipLeadingHeadingLines_eq_dropWhile, extract_first_nonempty_line_eq_find]
  have he : (fun l => startsWithS (ltrimS l) "#") = lineIsHeading := rfl
  rw [he]
  cases ((splitLinesS scene_outline.raw_text).dropWhile lineIsHeading).find?
      (fun l => trimS l != "") with
  | none => rfl
  | some l => rfl

/-- C2 counterexample: on `"# T\n\n# S\nbody"` the blank second line ends the
leading-heading skip, so the code returns the heading `"# S"` while the claim
asks for `"body"`, the first non-empty non-heading line. -/
theorem c2_counterexample :
    (build_outline_context ⟨ ""⟩ ⟨ "# T\n\n# S\nbody"⟩ 1 none).scene_summary = "# S" ∧
    claimedSceneSummary "# T\n\n# S\nbody" = "body" ∧
    (build_outline_context ⟨ ""⟩ ⟨ "# T\n\n# S\nbody"⟩ 1 none).scene_summary ≠
      claimedSceneSummary "# T\n\n# S\nbody" := by
  refine ⟨?_, ?_, ?_⟩ <;> decide

/-! ## C10: totality and fallbacks of `_parse_markdown_card` -/

/-- Where the front matter closes: the text after the first newline paired
with the index of `"\n---"` inside it (`none` when it never closes). -/
def fmClose (text : String) : Option (String × Nat) :=
  (splitFirstNL text).bind
    (fun pr => (findSub ( "\n---").data pr.2.data).map (fun i => (pr.2, i)))

/-- C10: `_parse_markdown_card` is total by construction (it is a plain Lean
function); when the text opens with the front-matter delimiter but no closing
`"\n---"` follows, the whole original text becomes the body with empty
metadata, and when the front matter closes but YAML parsing fails, metadata
is empty and the body is the text after the closing delimiter with leading
newlines dropped. -/
theorem c10_parse_markdown_card_total (yamlP : YamlOracle) (text : String) :
    (startsWithS text "---" = true → fmClose text = none →
      parse_markdown_card yamlP text = ⟨ [], text⟩)
    ∧ (∀ rest i, startsWithS text "---" = true → fmClose text = some (rest, i) →
        yamlP ⟨rest.data.take i⟩ = .error () →
        parse_markdown_card yamlP text =
          ⟨ [], ⟨(rest.data.drop (i + 4)).dropWhile (fun c => c == '\n')⟩⟩) := by
  constructor
  · intro hstart hclose
    unfold parse_markdown_card
    unfold fmClose at hclose
    cases hnl : splitFirstNL text with
    | none => simp [hstart, hnl]
    | some pr =>
      obtain ⟨first, rest'⟩ := pr
      rw [hnl] at hclose
      cases hfind : findSub ( "\n---").data rest'.data with
      | none => simp [hstart, hnl, hfind]
      | some j => simp [hfind] at hclose
  · intro rest i hstart hclose herr
    unfold parse_markdown_card
    unfold fmClose at hclose
    cases hnl : splitFirstNL text with
    | none =>
      rw [hnl] at hclose
      simp at hclose
    | some pr =>
      obtain ⟨first, rest'⟩ := pr
      rw [hnl] at hclose
      cases hfind : findSub ( "\n---").data rest'.data with
      | none => simp [hfind] at hclose
      | some j =>
        simp [hfind] at hclose
        obtain ⟨hr, hi⟩ := hclose
        subst hr
        subst hi
        simp [hstart, hnl, hfind, herr]

/-! ## C8: shape of the story-so-far block -/

/-- The single top-level act grouping's opening line. -/
def actOpenLine : String := "<act number=\"1\" title=\"Novel\">"

def resolvedChapterTitle (spec : BeatSpec) : String :=
  if spec.outline.chapter_title = "" then "Chapter " ++ toString spec.ids.chapter_num
  else spec.outline.chapter_title

def resolvedSceneTitle (spec : BeatSpec) : String :=
  if spec.outline.scene_title = "" then "Scene " ++ toString spec.ids.scene_num
  else spec.outline.scene_title

def resolvedPrevSceneTitle (spec : BeatSpec) : String :=
  if spec.outline.previous_scene_title = "" then "Previous Scene"
  else spec.outline.previous_scene_title

def prevSceneNumOf (spec : BeatSpec) : Nat :=
  if spec.ids.scene_num > 1 then spec.ids.scene_num - 1 else max (spec.ids.scene_num - 1) 0

/-- The single chapter grouping's opening line. -/
def chapterOpenLine (spec : BeatSpec) : String :=
  "  <chapter title=\"" ++ resolvedChapterTitle spec ++ "\" number=\"" ++
    toString spec.ids.chapter_num ++ "\">"

/-- The optional previous-scene grouping. -/
def prevSceneGroup (spec : BeatSpec) : List String :=
  [ "    <scene title=\"" ++ resolvedPrevSceneTitle spec ++ "\" number=\"" ++
      toString (prevSceneNumOf spec) ++ "\">",
    "      " ++ trimS spec.outline.previous_scene_summary,
    "    </scene>"]

/-- The always-present current-scene grouping, with its summary line present
exactly when the stripped scene summary is non-empty. -/
def currentSceneGroup (spec : BeatSpec) : List String :=
  [ "    <scene title=\"" ++ resolvedSceneTitle spec ++ "\" number=\"" ++
      toString spec.ids.scene_num ++ "\">"] ++
  (if trimS spec.outline.scene_summary ≠ "" then
    [ "      " ++ trimS spec.outline.scene_summary] else []) ++
  [ "    </scene>"]

/-- C8: the story-so-far block consists of exactly one top-level act grouping
holding exactly one chapter grouping; the previous-scene grouping appears if
and only if the outline's previous-scene summary is non-empty once stripped,
and the current-scene grouping is always present with its summary line
omitted exactly when the stripped scene summary is empty. -/
theorem c8_story_so_far_shape (spec : BeatSpec) :
    build_story_so_far_lines spec =
      [actOpenLine, chapterOpenLine spec] ++
      (if trimS spec.outline.previous_scene_summary ≠ "" then prevSceneGroup spec
        else []) ++
      currentSceneGroup spec ++
      [ "  </chapter>", "</act>"] := by
  unfold build_story_so_far_lines actOpenLine chapterOpenLine currentSceneGroup
    prevSceneGroup resolvedChapterTitle resolvedSceneTitle resolvedPrevSceneTitle
    prevSceneNumOf
  by_cases h1 : trimS spec.outline.previous_scene_summary = "" <;>
    by_cases h2 : trimS spec.outline.scene_summary = "" <;>
      simp [h1, h2]

/-! ## C6: unknown action key fails with a descriptive KeyError -/

theorem containsSub_append_left {p s : List Char} (t : List Char)
    (h : containsSub p s) : containsSub p (t ++ s) := by
  obtain ⟨l, r, rfl⟩ := h
  exact ⟨t ++ l, r, by simp⟩

theorem mem_joinSep_containsSub {a : String} {l : List String} (sep : String)
    (h : a ∈ l) : containsSub a.data (joinSep sep l).data := by
  induction l with
  | nil => simp at h
  | cons x t ih =>
    rcases List.mem_cons.mp h with h1 | h2
    · subst h1
      cases t with
      | nil => exact ⟨ [], [], by simp [joinSep]⟩
      | cons y t' =>
        refine ⟨ [], (sep ++ joinSep sep (y :: t')).data, ?_⟩
        simp [joinSep, strData_append]
    · cases t with
      | nil => simp at h2
      | cons y t' =>
        obtain ⟨l1, r1, hsplit⟩ := ih h2
        refine ⟨(x ++ sep).data ++ l1, r1, ?_⟩
        show (x ++ sep ++ joinSep sep (y :: t')).data = _
        rw [strData_append, hsplit]
        simp

theorem mem_insertSorted (a x : String) (l : List String) :
    a ∈ insertSorted x l ↔ a = x ∨ a ∈ l := by
  induction l with
  | nil => simp [insertSorted]
  | cons y t ih =>
    by_cases h : x ≤ y
    · simp [insertSorted, h]
    · simp only [insertSorted, h, if_false, List.mem_cons, ih]
      tauto

theorem mem_sortStrings (a : String) (l : List String) :
    a ∈ sortStrings l ↔ a ∈ l := by
  induction l with
  | nil => simp [sortStrings]
  | cons x t ih => simp [sortStrings, mem_insertSorted, ih]

/-- C6: for an action key absent from the prompting configuration's actions
mapping, `render_prompts_for_action` fails with a `KeyError` whose message
contains the offending key and every known action key. -/
theorem c6_unknown_action_keyerror (fs : String → Option String) (story_root : String)
    (actions_cfg : List (String × ActionCfg)) (action_key : String)
    (blocks : List (String × String))
    (h : dget? action_key actions_cfg = none) :
    ∃ msg, render_prompts_for_action fs story_root actions_cfg action_key blocks =
        .error (.keyError msg)
      ∧ containsSub action_key.data msg.data
      ∧ ∀ a ∈ actions_cfg.map Prod.fst, containsSub a.data msg.data := by
  refine ⟨ "Action \x27" ++ action_key ++ "\x27 not found in prompting.yaml. " ++
      "Available actions: " ++
      joinSep ", " (sortStrings (actions_cfg.map Prod.fst)), ?_, ?_, ?_⟩
  · unfold render_prompts_for_action
    rw [h]
  · refine ⟨( "Action \x27").data,
      ( "\x27 not found in prompting.yaml. " ++ "Available actions: " ++
        joinSep ", " (sortStrings (actions_cfg.map Prod.fst))).data, ?_⟩
    simp only [strData_append]
    simp [List.append_assoc]
  · intro a ha
    have hmem : a ∈ sortStrings (actions_cfg.map Prod.fst) :=
      (mem_sortStrings a _).mpr ha
    have hjoin := mem_joinSep_containsSub ( ", ") hmem
    have := containsSub_append_left
      (( "Action \x27" ++ action_key ++ "\x27 not found in prompting.yaml. " ++
        "Available actions: ").data) hjoin
    obtain ⟨l1, r1, hsplit⟩ := this
    refine ⟨l1, r1, ?_⟩
    rw [← hsplit]
    simp [strData_append, List.append_assoc]

/-- Witness for C6: the action key `"UNKNOWN"` against a configuration whose
only action is `ACTIONS_WRITE_BEAT`. -/
theorem c6_witness :
    ∃ msg, render_prompts_for_action (fun _ => none) "story"
        [ ( "ACTIONS_WRITE_BEAT", ⟨ "nc/beat", []⟩)] "UNKNOWN" [] =
        .error (.keyError msg)
      ∧ containsSub ( "UNKNOWN" : String).data msg.data
      ∧ ∀ a ∈ ([ ( "ACTIONS_WRITE_BEAT", (⟨ "nc/beat", []⟩ : ActionCfg))].map Prod.fst),
          containsSub a.data msg.data :=
  c6_unknown_action_keyerror _ _ _ _ _ (by decide)

/-! ## C7: missing template files, required versus optional slots -/

theorem renderSlots_error_of_required_missing (fs : String → Option String)
    (prompts_root : String) (blocks : List (String × String)) :
    ∀ (slots : List SlotDef) (acc : List (String × String)),
      (∃ sd ∈ slots, sd.required = true ∧
        fs (prompts_root ++ "/" ++ slot_to_filename sd.slot) = none) →
      ∃ m, renderSlots fs prompts_root blocks acc slots = .error (.fileNotFound m) := by
  intro slots
  induction slots with
  | nil => intro acc h; obtain ⟨sd, hmem, _⟩ := h; simp at hmem
  | cons sd0 rest ih =>
    intro acc h
    obtain ⟨sd, hmem, hreq, hmiss⟩ := h
    simp only [renderSlots]
    cases hfs : fs (prompts_root ++ "/" ++ slot_to_filename sd0.slot) with
    | none =>
      by_cases hr0 : sd0.required
      · refine ⟨ "Required template file for slot \x27" ++ sd0.slot ++
          "\x27 not found at: " ++ (prompts_root ++ "/" ++ slot_to_filename sd0.slot), ?_⟩
        simp [hr0]
      · simp only [hr0, Bool.false_eq_true, if_false]
        apply ih
        rcases List.mem_cons.mp hmem with h1 | h2
        · subst h1; exact absurd hreq (by simpa using hr0)
        · exact ⟨sd, h2, hreq, hmiss⟩
    | some raw_text =>
      apply ih
      rcases List.mem_cons.mp hmem with h1 | h2
      · subst h1; rw [hfs] at hmiss; exact absurd hmiss (by simp)
      · exact ⟨sd, h2, hreq, hmiss⟩

theorem renderSlots_ok_of_required_present (fs : String → Option String)
    (prompts_root : String) (blocks : List (String × String)) :
    ∀ (slots : List SlotDef) (acc : List (String × String)),
      (∀ sd ∈ slots, sd.required = true →
        fs (prompts_root ++ "/" ++ slot_to_filename sd.slot) ≠ none) →
      ∃ m, renderSlots fs prompts_root blocks acc slots = .ok m := by
  intro slots
  induction slots with
  | nil => intro acc _; exact ⟨acc, rfl⟩
  | cons sd0 rest ih =>
    intro acc h
    simp only [renderSlots]
    cases hfs : fs (prompts_root ++ "/" ++ slot_to_filename sd0.slot) with
    | none =>
      by_cases hr0 : sd0.required
      · exact absurd hfs (h sd0 (List.mem_cons_self _ _) hr0)
      · simp only [hr0, Bool.false_eq_true, if_false]
        exact ih acc (fun sd hm => h sd (List.mem_cons_of_mem _ hm))
    | some raw_text =>
      exact ih _ (fun sd hm => h sd (List.mem_cons_of_mem _ hm))

theorem renderSlots_preserves_absent (fs : String → Option String)
    (prompts_root : String) (blocks : List (String × String)) (name : String) :
    ∀ (slots : List SlotDef) (acc m : List (String × String)),
      name ∉ slots.map SlotDef.slot →
      renderSlots fs prompts_root blocks acc slots = .ok m →
      dget? name m = dget? name acc := by
  intro slots
  induction slots with
  | nil =>
    intro acc m _ hok
    simp only [renderSlots] at hok
    cases hok
    rfl
  | cons sd0 rest ih =>
    intro acc m hnot hok
    have hne : name ≠ sd0.slot := by
      intro hEq
      exact hnot (by simp [hEq])
    have hnot' : name ∉ rest.map SlotDef.slot := by
      intro hmem
      exact hnot (by simp [hmem])
    simp only [renderSlots] at hok
    cases hfs : fs (prompts_root ++ "/" ++ slot_to_filename sd0.slot) with
    | none =>
      rw [hfs] at hok
      by_cases hr0 : sd0.required
      · simp [hr0] at hok
      · simp only [hr0, Bool.false_eq_true, if_false] at hok
        exact ih acc m hnot' hok
    | some raw_text =>
      rw [hfs] at hok
      have := ih _ m hnot' hok
      rw [this, dget?_dinsert_ne _ _ hne]

theorem renderSlots_optional_missing_absent (fs : String → Option String)
    (prompts_root : String) (blocks : List (String × String)) (sd : SlotDef) :
    ∀ (slots : List SlotDef) (acc m : List (String × String)),
      sd ∈ slots →
      fs (prompts_root ++ "/" ++ slot_to_filename sd.slot) = none →
      (slots.map SlotDef.slot).Nodup →
      dget? sd.slot acc = none →
      renderSlots fs prompts_root blocks acc slots = .ok m →
      dget? sd.slot m = none := by
  intro slots
  induction slots with
  | nil => intro acc m hmem _ _ _ _; simp at hmem
  | cons sd0 rest ih =>
    intro acc m hmem hmiss hnodup hacc hok
    have hnodup' : (rest.map SlotDef.slot).Nodup := by
      simpa using (List.nodup_cons.mp (by simpa using hnodup)).2
    simp only [renderSlots] at hok
    rcases List.mem_cons.mp hmem with h1 | h2
    · subst h1
      rw [hmiss] at hok
      by_cases hr0 : sd.required
      · simp [hr0] at hok
      · simp only [hr0, Bool.false_eq_true, if_false] at hok
        have hnot : sd.slot ∉ rest.map SlotDef.slot :=
          (List.nodup_cons.mp (by simpa using hnodup)).1
        rw [renderSlots_preserves_absent fs prompts_root blocks sd.slot rest acc m
          hnot hok]
        exact hacc
    · have hslotmem : sd.slot ∈ rest.map SlotDef.slot :=
        List.mem_map_of_mem SlotDef.slot h2
      have hne : sd.slot ≠ sd0.slot := by
        intro hEq
        exact (List.nodup_cons.mp (by simpa using hnodup)).1 (hEq ▸ hslotmem)
      cases hfs : fs (prompts_root ++ "/" ++ slot_to_filename sd0.slot) with
      | none =>
        rw [hfs] at hok
        by_cases hr0 : sd0.required
        · simp [hr0] at hok
        · simp only [hr0, Bool.false_eq_true, if_false] at hok
          exact ih acc m h2 hmiss hnodup' hacc hok
      | some raw_text =>
        rw [hfs] at hok
        refine ih _ m h2 hmiss hnodup' ?_ hok
        rw [dget?_dinsert_ne _ _ hne]
        exact hacc

/-- C7: for a configured action whose declared slot's resolved template file
does not exist, rendering fails with a not-found error when that slot (or any
slot) is required and missing; when the slot is optional it never blocks: if
rendering succeeds the slot is absent from the result, and when every
required slot's file exists rendering does succeed with the optional missing
slot omitted. -/
theorem c7_missing_template_policy (fs : String → Option String) (story_root : String)
    (actions_cfg : List (String × ActionCfg)) (action_key : String)
    (blocks : List (String × String)) (action_cfg : ActionCfg) (sd : SlotDef)
    (hA : dget? action_key actions_cfg = some action_cfg)
    (hmem : sd ∈ action_cfg.slots)
    (hnodup : (action_cfg.slots.map SlotDef.slot).Nodup)
    (hmiss : fs (story_root ++ "/toolkit/prompts/" ++ action_cfg.template_set ++
      "/" ++ slot_to_filename sd.slot) = none) :
    (sd.required = true →
      ∃ m, render_prompts_for_action fs story_root actions_cfg action_key blocks =
        .error (.fileNotFound m))
    ∧ (sd.required = false →
        ∀ m, render_prompts_for_action fs story_root actions_cfg action_key blocks =
          .ok m → dget? sd.slot m = none)
    ∧ (sd.required = false →
        (∀ sd2 ∈ action_cfg.slots, sd2.required = true →
          fs (story_root ++ "/toolkit/prompts/" ++ action_cfg.template_set ++
            "/" ++ slot_to_filename sd2.slot) ≠ none) →
        ∃ m, render_prompts_for_action fs story_root actions_cfg action_key blocks =
          .ok m ∧ dget? sd.slot m = none) := by
  have hrender : render_prompts_for_action fs story_root actions_cfg action_key blocks =
      renderSlots fs (story_root ++ "/toolkit/prompts/" ++ action_cfg.template_set)
        blocks [] action_cfg.slots := by
    unfold render_prompts_for_action
    rw [hA]
  refine ⟨?_, ?_, ?_⟩
  · intro hreq
    rw [hrender]
    exact renderSlots_error_of_required_missing fs _ blocks action_cfg.slots []
      ⟨sd, hmem, hreq, hmiss⟩
  · intro _ m hok
    rw [hrender] at hok
    exact renderSlots_optional_missing_absent fs _ blocks sd action_cfg.slots [] m
      hmem hmiss hnodup rfl hok
  · intro _ hall
    obtain ⟨m, hok⟩ := renderSlots_ok_of_required_present fs
      (story_root ++ "/toolkit/prompts/" ++ action_cfg.template_set) blocks
      action_cfg.slots [] (fun sd2 hm hr => hall sd2 hm hr)
    refine ⟨m, by rw [hrender]; exact hok, ?_⟩
    exact renderSlots_optional_missing_absent fs _ blocks sd action_cfg.slots [] m
      hmem hmiss hnodup rfl hok

/-- Witness for C7: one action with a single optional `user` slot whose
template file is absent. -/
theorem c7_witness :
    ((⟨ "user", "user", false⟩ : SlotDef).required = true →
      ∃ m, render_prompts_for_action (fun _ => none) "story"
          [ ( "A", ⟨ "ts", [⟨ "user", "user", false⟩]⟩)] "A" [] =
        .error (.fileNotFound m))
    ∧ ((⟨ "user", "user", false⟩ : SlotDef).required = false →
        ∀ m, render_prompts_for_action (fun _ => none) "story"
            [ ( "A", ⟨ "ts", [⟨ "user", "user", false⟩]⟩)] "A" [] =
          .ok m → dget? ( "user" : String) m = none)
    ∧ ((⟨ "user", "user", false⟩ : SlotDef).required = false →
        (∀ sd2 ∈ ([⟨ "user", "user", false⟩] : List SlotDef), sd2.required = true →
          (fun (_ : String) => (none : Option String))
            ( "story" ++ "/toolkit/prompts/" ++ "ts" ++ "/" ++
              slot_to_filename sd2.slot) ≠ none) →
        ∃ m, render_prompts_for_action (fun _ => none) "story"
            [ ( "A", ⟨ "ts", [⟨ "user", "user", false⟩]⟩)] "A" [] =
          .ok m ∧ dget? ( "user" : String) m = none) :=
  c7_missing_template_policy (fun _ => none) "story"
    [ ( "A", ⟨ "ts", [⟨ "user", "user", false⟩]⟩)] "A" []
    ⟨ "ts", [⟨ "user", "user", false⟩]⟩ ⟨ "user", "user", false⟩
    (by decide) (by decide) (by decide) rfl

/-! ## C5: merged character keys and POV come from the Card Store -/

theorem keys_foldl_dinsert_sub {α β : Type} (f : String × α → β) :
    ∀ (l : List (String × α)) (acc : List (String × β)),
      ((l.foldl (fun a p => dinsert p.1 (f p) a) acc).map Prod.fst) ⊆
        acc.map Prod.fst ++ l.map Prod.fst := by
  intro l
  induction l with
  | nil => intro acc a ha; simpa using ha
  | cons p t ih =>
    intro acc a ha
    have step := ih (dinsert p.1 (f p) acc) (by simpa using ha)
    rcases List.mem_append.mp step with h1 | h2
    · rcases List.mem_cons.mp (keys_dinsert_sub p.1 (f p) acc h1) with h3 | h4
      · simp [h3]
      · simp [h4]
    · simp only [List.map_cons, List.mem_append, List.mem_cons]
      exact Or.inr (Or.inr h2)

theorem mem_keys_foldl_dinsert {α β : Type} (f : String × α → β) :
    ∀ (l : List (String × α)) (acc : List (String × β)) (k : String),
      (k ∈ l.map Prod.fst ∨ k ∈ acc.map Prod.fst) →
      k ∈ ((l.foldl (fun a p => dinsert p.1 (f p) a) acc).map Prod.fst) := by
  intro l
  induction l with
  | nil =>
    intro acc k h
    rcases h with h | h
    · simp at h
    · simpa using h
  | cons p t ih =>
    intro acc k h
    rcases h with h | h
    · rw [List.map_cons] at h
      rcases List.mem_cons.mp h with h1 | h2
      · exact ih _ k (Or.inr (by
          subst h1
          exact mem_keys_dinsert_self p.1 (f p) acc))
      · exact ih _ k (Or.inl h2)
    · exact ih _ k (Or.inr (mem_keys_dinsert_of p.1 (f p) acc h))

/-- C5: in every beat specification built by `build_beat_spec`, each key of
the merged characters map is a key of the character card mapping loaded for
that scene, and a present POV references a key of the merged map. -/
theorem c5_beat_spec_invariant (w : World) (chapter_num scene_num beat_num : Nat) :
    (((build_beat_spec w chapter_num scene_num beat_num).characters.map Prod.fst) ⊆
      ((get_characters_for_scene w
        (load_scene_outline w chapter_num scene_num)).map Prod.fst))
    ∧ ∀ pov, (build_beat_spec w chapter_num scene_num beat_num).pov = some pov →
        pov.id ∈
          ((build_beat_spec w chapter_num scene_num beat_num).characters.map Prod.fst) := by
  have hc : (build_beat_spec w chapter_num scene_num beat_num).characters =
      merge_character_cards_with_over_time
        (get_characters_for_scene w (load_scene_outline w chapter_num scene_num))
        (get_characters_over_time w
          ((get_characters_for_scene w
            (load_scene_outline w chapter_num scene_num)).map Prod.fst))
        chapter_num (dget? "character_over_time" w.beatgenCfg) := rfl
  have hp : (build_beat_spec w chapter_num scene_num beat_num).pov =
      determine_pov_character (load_scene_outline w chapter_num scene_num)
        (get_characters_for_scene w (load_scene_outline w chapter_num scene_num)) := rfl
  constructor
  · rw [hc]
    unfold merge_character_cards_with_over_time
    intro a ha
    have := keys_foldl_dinsert_sub _ _ [] ha
    simpa using this
  · intro pov hpov
    rw [hp] at hpov
    rw [hc]
    unfold merge_character_cards_with_over_time
    cases hchars : get_characters_for_scene w (load_scene_outline w chapter_num scene_num) with
    | nil =>
      rw [hchars] at hpov
      simp [determine_pov_character] at hpov
    | cons q t =>
      rw [hchars] at hpov
      obtain ⟨cid, card⟩ := q
      simp only [determine_pov_character, Option.some.injEq] at hpov
      have hid : pov.id = cid := by rw [← hpov]
      rw [hid]
      exact mem_keys_foldl_dinsert _ ((cid, card) :: t) [] cid (Or.inl (by simp))

/-- Witness for C5 at a trivial story root with no codex data. -/
theorem c5_witness :
    ((((build_beat_spec
        ⟨ [], none, fun _ _ => none, [], fun _ => none, fun _ => .ok none⟩
        1 1 1).characters.map Prod.fst) ⊆
      ((get_characters_for_scene
        ⟨ [], none, fun _ _ => none, [], fun _ => none, fun _ => .ok none⟩
        (load_scene_outline
          ⟨ [], none, fun _ _ => none, [], fun _ => none, fun _ => .ok none⟩
          1 1)).map Prod.fst))
    ∧ ∀ pov, (build_beat_spec
        ⟨ [], none, fun _ _ => none, [], fun _ => none, fun _ => .ok none⟩
        1 1 1).pov = some pov →
        pov.id ∈
          (((build_beat_spec
            ⟨ [], none, fun _ _ => none, [], fun _ => none, fun _ => .ok none⟩
            1 1 1).characters.map Prod.fst))) :=
  c5_beat_spec_invariant _ 1 1 1

/-! ## C1: character-over-time lookup -/

theorem dget?_reverse_map_fold (B : String) (card : YDict) :
    ∀ (l : List (String × YDict)) (acc : List (String × YDict)),
      ((B ++ "_OVER_TIME", card) ∈ l ∨ dget? B acc = some card) →
      (∀ p ∈ l, stripOverTime p.1 = B → p.2 = card) →
      stripOverTime (B ++ "_OVER_TIME") = B →
      dget? B (l.foldl (fun result p => dinsert (stripOverTime p.1) p.2 result) acc) =
        some card := by
  intro l
  induction l with
  | nil =>
    intro acc h _ _
    rcases h with h | h
    · simp at h
    · simpa using h
  | cons p t ih =>
    intro acc h huniq hstrip
    simp only [List.foldl_cons]
    by_cases hB : stripOverTime p.1 = B
    · have hv : p.2 = card := huniq p (List.mem_cons_self _ _) hB
      refine ih _ (Or.inr ?_) (fun q hq => huniq q (List.mem_cons_of_mem _ hq)) hstrip
      rw [hB, hv]
      exact dget?_dinsert_self B card acc
    · rcases h with h | h
      · rcases List.mem_cons.mp h with h1 | h2
        · exfalso
          apply hB
          rw [← h1]
          exact hstrip
        · exact ih _ (Or.inl h2) (fun q hq => huniq q (List.mem_cons_of_mem _ hq)) hstrip
      · refine ih _ (Or.inr ?_) (fun q hq => huniq q (List.mem_cons_of_mem _ hq)) hstrip
        rw [dget?_dinsert_ne _ _ (fun hh => hB hh.symm)]
        exact h

theorem dget?_filter_fold (result : List (String × YDict)) (B : String) (card : YDict)
    (hres : dget? B result = some card) :
    ∀ (ids : List String) (acc : List (String × YDict)),
      (B ∈ ids ∨ dget? B acc = some card) →
      dget? B (ids.foldl
        (fun filtered char_id =>
          match dget? char_id result with
          | some c => dinsert char_id c filtered
          | none => filtered) acc) = some card := by
  intro ids
  induction ids with
  | nil =>
    intro acc h
    rcases h with h | h
    · simp at h
    · simpa using h
  | cons cid t ih =>
    intro acc h
    simp only [List.foldl_cons]
    by_cases hcid : cid = B
    · subst hcid
      rw [hres]
      exact ih _ (Or.inr (dget?_dinsert_self cid card acc))
    · rcases h with h | h
      · rcases List.mem_cons.mp h with h1 | h2
        · exact absurd h1.symm hcid
        · cases hc : dget? cid result with
          | none => exact ih _ (Or.inl h2)
          | some c => exact ih _ (Or.inl h2)
      · cases hc : dget? cid result with
        | none => exact ih _ (Or.inr h)
        | some c =>
          refine ih _ (Or.inr ?_)
          rw [dget?_dinsert_ne _ _ (fun hh => hcid hh.symm)]
          exact h

/-- C1 (amended): if the over-time store holds a card whose identifier is
exactly `B ++ "_OVER_TIME"`, suffix-stripping that identifier yields exactly
`B` (the code removes every occurrence of the suffix, so `B` itself must not
contain it), and every store card whose stripped identifier is `B` carries
this card's data (later cards would otherwise overwrite it), then the
over-time lookup for a request list containing `B` binds `B` to that card. -/
theorem c1_over_time_lookup (w : World) (character_ids : List String) (B : String)
    (card : YDict)
    (hmem : (B ++ "_OVER_TIME", card) ∈ load_cards_for_type w "CHAR_OVERTIME")
    (huniq : ∀ p ∈ load_cards_for_type w "CHAR_OVERTIME",
      stripOverTime p.1 = B → p.2 = card)
    (hstrip : stripOverTime (B ++ "_OVER_TIME") = B)
    (hids : B ∈ character_ids) :
    dget? B (get_characters_over_time w character_ids) = some card := by
  unfold get_characters_over_time
  exact dget?_filter_fold _ B card
    (dget?_reverse_map_fold B card (load_cards_for_type w "CHAR_OVERTIME") []
      (Or.inl hmem) huniq hstrip)
    character_ids [] (Or.inl hids)

/-- A story root with the single over-time card file `CHAR_A_OVER_TIME.md`
holding no front matter and the body `State.`. -/
def c1World : World :=
  ⟨ [], none, fun _ _ => none,
    [ ( "CHAR_OVERTIME", ⟨some "characters_over_time"⟩)],
    fun f => if f = "characters_over_time" then
      some [⟨ "CHAR_A_OVER_TIME", "State."⟩] else none,
    fun _ => .ok none⟩

/-- Witness for C1 at `c1World` and base identifier `CHAR_A`. -/
theorem c1_witness :
    dget? "CHAR_A" (get_characters_over_time c1World [ "CHAR_A"]) =
      some [ ( "body", .str "State."), ( "raw_text", .str "State."),
        ( "summary", .str "State.")] :=
  c1_over_time_lookup c1World [ "CHAR_A"] "CHAR_A"
    [ ( "body", .str "State."), ( "raw_text", .str "State."), ( "summary", .str "State.")]
    (by decide) (by decide) (by decide) (by decide)

/-- A story root whose single over-time card has the identifier
`X_OVER_TIMEY_OVER_TIME`, i.e. base identifier `X_OVER_TIMEY` followed by the
fixed suffix. -/
def c1CexWorld : World :=
  ⟨ [], none, fun _ _ => none,
    [ ( "CHAR_OVERTIME", ⟨some "characters_over_time"⟩)],
    fun f => if f = "characters_over_time" then
      some [⟨ "X_OVER_TIMEY_OVER_TIME", "S."⟩] else none,
    fun _ => .ok none⟩

/-- C1 counterexample: the store holds the card with identifier
`"X_OVER_TIMEY" ++ "_OVER_TIME"`, yet the lookup for `X_OVER_TIMEY` yields no
binding at all, because `replace` strips every occurrence of the suffix and
files the card under `XY`. -/
theorem c1_counterexample :
    ( "X_OVER_TIMEY" ++ "_OVER_TIME" = "X_OVER_TIMEY_OVER_TIME")
    ∧ ( "X_OVER_TIMEY_OVER_TIME",
        [ ( "body", YVal.str "S."), ( "raw_text", YVal.str "S."),
          ( "summary", YVal.str "S.")]) ∈
        load_cards_for_type c1CexWorld "CHAR_OVERTIME"
    ∧ dget? "X_OVER_TIMEY" (get_characters_over_time c1CexWorld [ "X_OVER_TIMEY"]) =
        none := by
  refine ⟨?_, ?_, ?_⟩ <;> decide

/-! ## C9: placeholder substitution in `_render_template_file` -/

/-- Text interleaved with a separator: `interL sep [c0, c1, ..., cn]` is
`c0 ++ sep ++ c1 ++ sep ++ ... ++ cn`. -/
def interL (sep : List Char) : List (List Char) → List Char
  | [] => []
  | [c] => c
  | c :: cs => c ++ sep ++ interL sep cs

theorem interL_cons_of_ne_nil (sep c : List Char) {cs : List (List Char)}
    (h : cs ≠ []) : interL sep (c :: cs) = c ++ sep ++ interL sep cs := by
  cases cs with
  | nil => exact absurd rfl h
  | cons d t => rfl

/-- The head chunk opens the interleaving. -/
theorem interL_head_exists (sep c : List Char) (cs : List (List Char)) :
    ∃ w, interL sep (c :: cs) = c ++ w := by
  cases cs with
  | nil => exact ⟨ [], by simp [interL]⟩
  | cons d t =>
    refine ⟨sep ++ interL sep (d :: t), ?_⟩
    rw [interL_cons_of_ne_nil sep c (by simp)]
    simp

/-- Core characterization of one pass of Python `replace` with a non-empty
pattern: the scanned text splits as chunks free of the pattern interleaved
with pattern occurrences, and the output is the same chunks interleaved with
the replacement, inserted literally. -/
theorem replaceAllAux_chunks (p v : List Char) (hp : p ≠ []) :
    ∀ (fuel : Nat) (s : List Char), s.length ≤ fuel →
      ∃ cs : List (List Char), cs ≠ [] ∧ s = interL p cs ∧
        (∀ c ∈ cs, ¬ containsSub p c) ∧
        replaceAllAux p v fuel s = interL v cs := by
  intro fuel
  induction fuel with
  | zero =>
    intro s hs
    have hse : s = [] := List.length_eq_zero.mp (Nat.le_zero.mp hs)
    subst hse
    refine ⟨[ []], by simp, by simp [interL], ?_, by simp [replaceAllAux, interL]⟩
    intro c hc
    rcases List.mem_singleton.mp hc with rfl
    rintro ⟨l, r, habs⟩
    have hplen : 0 < p.length := List.length_pos.mpr hp
    have hlen := congrArg List.length habs
    simp only [List.length_nil, List.length_append] at hlen
    omega
  | succ fuel ih =>
    intro s hs
    cases s with
    | nil =>
      refine ⟨[ []], by simp, by simp [interL], ?_, by simp [replaceAllAux, interL]⟩
      intro c hc
      rcases List.mem_singleton.mp hc with rfl
      rintro ⟨l, r, habs⟩
      have hplen : 0 < p.length := List.length_pos.mpr hp
      have hlen := congrArg List.length habs
      simp only [List.length_nil, List.length_append] at hlen
      omega
    | cons c rest =>
      by_cases hpre : p.isPrefixOf (c :: rest) = true
      · obtain ⟨r, hr⟩ := isPrefixOf_iff_exists.mp hpre
        have hplen : 1 ≤ p.length := by
          cases p with
          | nil => exact absurd rfl hp
          | cons a q => simp
        have hrlen : r.length ≤ fuel := by
          have : (c :: rest).length = p.length + r.length := by
            rw [hr]; simp
          simp only [List.length_cons] at this hs
          omega
        obtain ⟨cs, hne, hsplit, hfree, heq⟩ := ih r hrlen
        refine ⟨ [] :: cs, by simp, ?_, ?_, ?_⟩
        · rw [interL_cons_of_ne_nil p [] hne, ← hsplit, hr]
          simp
        · intro ch hch
          rcases List.mem_cons.mp hch with rfl | h2
          · rintro ⟨l, r2, habs⟩
            have hplen : 0 < p.length := List.length_pos.mpr hp
            have hlen := congrArg List.length habs
            simp only [List.length_nil, List.length_append] at hlen
            omega
          · exact hfree ch h2
        · have hdrop : List.drop p.length (c :: rest) = r := by
            rw [hr]
            exact List.drop_left p r
          rw [replaceAllAux, if_pos hpre, hdrop, heq,
            interL_cons_of_ne_nil v [] hne]
          simp
      · have hrest : rest.length ≤ fuel := by
          simpa using Nat.le_of_succ_le_succ hs
        obtain ⟨cs, hne, hsplit, hfree, heq⟩ := ih rest hrest
        cases cs with
        | nil => exact absurd rfl hne
        | cons c0 cs' =>
          refine ⟨(c :: c0) :: cs', by simp, ?_, ?_, ?_⟩
          · cases cs' with
            | nil =>
              simp only [interL] at hsplit ⊢
              rw [hsplit]
            | cons c1 t =>
              rw [interL_cons_of_ne_nil p (c :: c0) (by simp),
                interL_cons_of_ne_nil p c0 (by simp)] at *
              rw [hsplit] at *
              simp
          · intro ch hch
            rcases List.mem_cons.mp hch with rfl | h2
            · rintro ⟨l, r2, habs⟩
              cases l with
              | nil =>
                apply hpre
                obtain ⟨w, hw⟩ := interL_head_exists p c0 cs'
                rw [hw] at hsplit
                simp only [List.nil_append] at habs
                refine isPrefixOf_iff_exists.mpr ⟨r2 ++ w, ?_⟩
                calc c :: rest = (c :: c0) ++ w := by rw [hsplit]; simp
                  _ = (p ++ r2) ++ w := by rw [habs]
                  _ = p ++ (r2 ++ w) := by simp
              | cons a l' =>
                have hc0 : c0 = l' ++ p ++ r2 := by
                  have := habs
                  simp only [List.cons_append, List.cons.injEq] at this
                  exact this.2
                exact hfree c0 (by simp) ⟨l', r2, hc0⟩
            · exact hfree ch (List.mem_cons_of_mem _ h2)
          · rw [replaceAllAux, if_neg hpre, heq]
            cases cs' with
            | nil => simp [interL]
            | cons c1 t =>
              rw [interL_cons_of_ne_nil v (c :: c0) (by simp),
                interL_cons_of_ne_nil v c0 (by simp)]
              simp

/-- C9 (amended): for a single-entry blocks mapping, rendering replaces every
occurrence of the double-brace-wrapped key with the value inserted literally
and leaves the rest of the template unchanged: the template splits into
placeholder-free chunks joined by the placeholder, and the output is the same
chunks joined by the value. (With several entries the passes run sequentially
in mapping order, so a later key's placeholder produced by an earlier
replacement is substituted as well.) -/
theorem c9_single_block_substitution (template k v : String) :
    ∃ cs : List (List Char), cs ≠ [] ∧
      template.data = interL ( "\x7b\x7b" ++ k ++ "\x7d\x7d").data cs ∧
      (∀ c ∈ cs, ¬ containsSub ( "\x7b\x7b" ++ k ++ "\x7d\x7d").data c) ∧
      (render_template_file template [ (k, v)]).data = interL v.data cs := by
  have hp : ( "\x7b\x7b" ++ k ++ "\x7d\x7d").data ≠ [] := by
    simp only [strData_append]
    simp
  obtain ⟨cs, h1, h2, h3, h4⟩ :=
    replaceAllAux_chunks ( "\x7b\x7b" ++ k ++ "\x7d\x7d").data v.data hp
      template.data.length template.data le_rfl
  exact ⟨cs, h1, h2, h3, h4⟩

/-- C9 counterexample: with blocks `A ↦ "{{B}}"`, `B ↦ "x"` (in that order)
and template `"{{A}}"`, the inserted value is processed by the later key's
pass, so the result is `"x"` rather than the literally-inserted `"{{B}}"`
that the claim requires. -/
theorem c9_counterexample :
    render_template_file "\x7b\x7bA\x7d\x7d"
        [ ( "A", "\x7b\x7bB\x7d\x7d"), ( "B", "x")] = "x" ∧
    render_template_file "\x7b\x7bA\x7d\x7d"
        [ ( "A", "\x7b\x7bB\x7d\x7d"), ( "B", "x")] ≠ "\x7b\x7bB\x7d\x7d" := by
  constructor <;> decide

end WritersToolkit
